import Mathlib

/-!
A shallow embedding, in Lean 4, of the core of the news-surge-alert-server
repository: the position sizer (src/strategy/entry.ts, `simulateEntry`), the
exit policy (src/strategy/exit.ts, `updateExit`), the paper-trading ledger
(src/sim/simulator.ts, `Simulator`), the price-confirmation gate
(src/pipeline/priceConfirm.ts), the impact scorer (src/pipeline/score.ts) and
the event classifier (src/pipeline/classify.ts).

Conventions of the embedding:
- JavaScript numbers are modelled as rationals (`ℚ`); `Math.floor`, `Math.ceil`
  and `Math.round` become `Int.floor`, `Int.ceil` and `fun q => ⌊q + 1/2⌋`.
  Division by zero follows the Lean convention `q / 0 = 0` (the JS code would
  produce `NaN`/`Infinity` there; where this matters for a theorem it is noted
  in its doc comment).
- `Math.sqrt` (used only inside the rolling-window standard deviation) is kept
  abstract as a function parameter `sqrtFn : ℚ → ℚ`; no theorem below depends
  on its values.
- JavaScript objects/Maps keyed by strings (or by event labels) are modelled as
  insertion-ordered association lists with `alookup` / `aset` / `adel`.
- Regular-expression tests that the scorer and the classifier perform on the
  item text are pure functions of that text; they are modelled as records of
  Booleans (`ScoreCues`, `ClassifyCues`), one field per regex in the source,
  supplied by an oracle function of the text. Control flow and arithmetic are
  translated statement by statement from the source.
-/

namespace NewsSurge

/-! ### Insertion-ordered association lists (JS objects / Maps) -/

/-- Lookup in an association list: first binding wins (JS property access). -/
def alookup {κ β : Type} [DecidableEq κ] : List (κ × β) → κ → Option β
  | [], _ => none
  | (k, v) :: rest, key => if k = key then some v else alookup rest key

/-- Set a key: update the first existing binding in place (keeping its
position, as a JS object or Map does) or append a new binding at the end. -/
def aset {κ β : Type} [DecidableEq κ] : List (κ × β) → κ → β → List (κ × β)
  | [], key, v => [(key, v)]
  | (k, w) :: rest, key, v =>
      if k = key then (k, v) :: rest else (k, w) :: aset rest key v

/-- Delete a key (JS `delete obj[key]` / `map.delete(key)`). -/
def adel {κ β : Type} [DecidableEq κ] : List (κ × β) → κ → List (κ × β)
  | [], _ => []
  | (k, w) :: rest, key => if k = key then rest else (k, w) :: adel rest key

theorem alookup_mem {κ β : Type} [DecidableEq κ] {l : List (κ × β)} {k : κ} {v : β}
    (h : alookup l k = some v) : (k, v) ∈ l := by
  induction l with
  | nil => simp [alookup] at h
  | cons hd tl ih =>
      rw [show hd = (hd.1, hd.2) from rfl, alookup] at h
      by_cases hk : hd.1 = k
      · rw [if_pos hk] at h
        injection h with h2
        exact List.mem_cons.mpr (Or.inl (by rw [← hk, ← h2]))
      · rw [if_neg hk] at h
        exact List.mem_cons_of_mem _ (ih h)

theorem mem_aset {κ β : Type} [DecidableEq κ] {l : List (κ × β)} {k : κ} {v : β}
    {kp : κ × β} (h : kp ∈ aset l k v) : kp = (k, v) ∨ kp ∈ l := by
  induction l with
  | nil => simp [aset] at h; simp [h]
  | cons hd tl ih =>
      rw [show hd = (hd.1, hd.2) from rfl, aset] at h
      by_cases hk : hd.1 = k
      · rw [if_pos hk] at h
        rcases List.mem_cons.mp h with h1 | h1
        · subst hk; left; rw [h1]
        · right; exact List.mem_cons_of_mem _ h1
      · rw [if_neg hk] at h
        rcases List.mem_cons.mp h with h1 | h1
        · right; rw [h1]; exact List.mem_cons_self _ _
        · rcases ih h1 with h2 | h2
          · left; exact h2
          · right; exact List.mem_cons_of_mem _ h2

theorem mem_adel {κ β : Type} [DecidableEq κ] {l : List (κ × β)} {k : κ}
    {kp : κ × β} (h : kp ∈ adel l k) : kp ∈ l := by
  induction l with
  | nil => simp [adel] at h
  | cons hd tl ih =>
      rw [show hd = (hd.1, hd.2) from rfl, adel] at h
      by_cases hk : hd.1 = k
      · rw [if_pos hk] at h
        exact List.mem_cons_of_mem _ h
      · rw [if_neg hk] at h
        rcases List.mem_cons.mp h with h1 | h1
        · rw [h1]; exact List.mem_cons_self _ _
        · exact List.mem_cons_of_mem _ (ih h1)

/-! ### src/strategy/entry.ts — orders and the position sizer -/

/-- Order side (`"buy" | "sell"`). -/
inductive Side where
  | buy
  | sell
deriving DecidableEq, Repr

/-- The `Order` type of src/strategy/entry.ts. -/
structure Order where
  side : Side
  symbol : String
  qty : ℚ
  ts : ℚ
  px : ℚ
  stopPx : Option ℚ := none
  notional : Option ℚ := none
deriving DecidableEq, Repr

/-- The `Position` type of src/strategy/entry.ts. -/
structure Position where
  symbol : String
  qty : ℚ
  avg : ℚ
  openTs : ℚ
  high : ℚ
deriving DecidableEq, Repr

/-- JS `Math.round`: round half toward positive infinity. -/
def jsRound (q : ℚ) : ℤ := ⌊q + 1 / 2⌋

/-- `simulateEntry` line 55: `Math.max(MIN_PRICE, Math.round(px / TICK) * TICK)`
with `MIN_PRICE = 0.5`, `TICK = 0.01`. -/
def cleanPxOf (px : ℚ) : ℚ := max (50 / 100) ((jsRound (px / (1 / 100)) : ℚ) * (1 / 100))

/-- `simulateEntry` line 59: `Math.max(cleanPx * 0.92, cleanPx - 0.5)`. -/
def stopPxOf (px : ℚ) : ℚ := max (cleanPxOf px * (92 / 100)) (cleanPxOf px - 50 / 100)

/-- `simulateEntry` line 60: `Math.max(cleanPx - stopPx, 0.01)`. -/
def perShareRiskOf (px : ℚ) : ℚ := max (cleanPxOf px - stopPxOf px) (1 / 100)

/-- `simulateEntry` line 63: `Math.floor(riskBudget / perShareRisk)` where
`riskBudget = equity * riskPct`. -/
def rawQtyOf (px riskPct equity : ℚ) : ℤ := ⌊(equity * riskPct) / perShareRiskOf px⌋

/-- `simulateEntry` line 66: `Math.floor(MAX_NOTIONAL / cleanPx)` with
`MAX_NOTIONAL = 5000`. -/
def maxQtyByNotionalOf (px : ℚ) : ℤ := ⌊(5000 : ℚ) / cleanPxOf px⌋

/-- `simulateEntry` line 52: `Math.max(0.01, px * 0.0005)`. -/
def slippageOf (px : ℚ) : ℚ := max (1 / 100) (px * (5 / 10000))

/-- `simulateEntry` lines 63-72: the raw risk-based quantity clamped by the
notional cap (`qty = Math.max(0, Math.min(qty, maxQtyByNotional))`), bumped to
`LOT_SIZE = 1` when positive but fractional, and bumped to meet
`MIN_NOTIONAL = 50` without exceeding the cap. -/
def entryQtyOf (px riskPct equity : ℚ) : ℤ :=
  let qty1 : ℤ := max 0 (min (rawQtyOf px riskPct equity) (maxQtyByNotionalOf px))
  let qty2 : ℤ := if 0 < qty1 ∧ qty1 < 1 then 1 else qty1
  if 0 < qty2 ∧ (qty2 : ℚ) * cleanPxOf px < 50 then
    min ⌈(50 : ℚ) / cleanPxOf px⌉ (maxQtyByNotionalOf px)
  else qty2

/-- `simulateEntry` of src/strategy/entry.ts (lines 39-91), translated
statement by statement via the helper definitions above. -/
def simulateEntry (symbol : String) (px now : ℚ)
    (riskPct : ℚ := 1 / 100) (equity : ℚ := 10000) : Order :=
  let qty := entryQtyOf px riskPct equity
  if qty ≤ 0 then
    { side := Side.buy, symbol := symbol, qty := 0, ts := now, px := cleanPxOf px }
  else
    let entryPx := cleanPxOf px + slippageOf px
    { side := Side.buy, symbol := symbol, qty := (qty : ℚ), ts := now,
      px := entryPx, stopPx := some (stopPxOf px), notional := some ((qty : ℚ) * entryPx) }

/-! ### src/strategy/exit.ts — exit policy -/

/-- The decision returned by `updateExit` (`{ reason, px }`); `reason` is one
of the strings `"trail"`, `"target50"`, `"time"`. -/
structure ExitDecision where
  reason : String
  px : ℚ
deriving DecidableEq, Repr

/-- `updateExit` of src/strategy/exit.ts (lines 4-16). The in-place mutation
`pos.high = Math.max(pos.high, lastPx)` is modelled by returning the updated
position alongside the optional decision; all later reads of `pos.high` in the
source see the updated value. -/
def updateExit (pos : Position) (lastPx now : ℚ) : Position × Option ExitDecision :=
  let pos := { pos with high := max pos.high lastPx }
  let gain := lastPx / pos.avg - 1
  let drawdownFromHigh := lastPx / pos.high - 1
  let timePassedMin := (now - pos.openTs) / 60000
  if drawdownFromHigh ≤ -(12 / 100) then (pos, some ⟨"trail", lastPx⟩)
  else if 1 / 2 ≤ gain then (pos, some ⟨"target50", lastPx⟩)
  else if 30 ≤ timePassedMin ∧ gain < 3 / 100 then (pos, some ⟨"time", lastPx⟩)
  else (pos, none)

/-! ### src/sim/simulator.ts — the paper-trading ledger -/

/-- The `SimFill` type of src/sim/simulator.ts. -/
structure SimFill where
  ts : ℚ
  symbol : String
  side : Side
  px : ℚ
  qty : ℚ
  reason : Option String := none
deriving DecidableEq, Repr

/-- The mutable fields of class `Simulator`. -/
structure SimState where
  fills : List SimFill
  cash : ℚ
  positions : List (String × Position)
  realizedPnl : ℚ
deriving DecidableEq, Repr

/-- The `Simulator` constructor (`startingCash = 100_000` by default), which is
also the state produced by `reset` as far as positions and fills are
concerned. -/
def SimState.init (startingCash : ℚ := 100000) : SimState :=
  { fills := [], cash := startingCash, positions := [], realizedPnl := 0 }

/-- The record pushed onto `this.fills` at the top of `Simulator.fill`
(lines 31-37 of src/sim/simulator.ts). -/
def fillRecordOf (o : Order) : SimFill :=
  { ts := o.ts, symbol := o.symbol, side := o.side, px := o.px, qty := o.qty }

/-- The buy branch of `Simulator.fill` (lines 39-57 of src/sim/simulator.ts):
debit cash, then create or merge the position (weighted-average cost, high
watermark updated with the buy price). -/
def SimState.applyBuy (σ : SimState) (o : Order) : SimState :=
  let σ1 : SimState := { σ with cash := σ.cash - o.px * o.qty }
  match alookup σ1.positions o.symbol with
  | none =>
      let created : Position :=
        { symbol := o.symbol, qty := o.qty, avg := o.px, openTs := o.ts, high := o.px }
      { σ1 with positions := aset σ1.positions o.symbol created }
  | some p =>
      let newQty := p.qty + o.qty
      let merged : Position :=
        { p with avg := (p.avg * p.qty + o.px * o.qty) / newQty,
                 qty := newQty,
                 high := max p.high o.px }
      { σ1 with positions := aset σ1.positions o.symbol merged }

/-- The sell branch of `Simulator.fill` (lines 60-77 of src/sim/simulator.ts):
ignored without a position; otherwise the sold quantity is capped at the held
quantity, cash and realized P&L are updated, and the position is reduced and
deleted when it reaches zero. -/
def SimState.applySell (σ : SimState) (o : Order) : SimState :=
  match alookup σ.positions o.symbol with
  | none => σ
  | some pos =>
      let qtyToSell := min o.qty pos.qty
      if qtyToSell ≤ 0 then σ
      else
        let σ1 : SimState := { σ with
          cash := σ.cash + o.px * qtyToSell,
          realizedPnl := σ.realizedPnl + (o.px - pos.avg) * qtyToSell }
        if pos.qty - qtyToSell = 0 then
          { σ1 with positions := adel σ1.positions o.symbol }
        else
          let reduced : Position :=
            { pos with qty := pos.qty - qtyToSell, high := max pos.high o.px }
          { σ1 with positions := aset σ1.positions o.symbol reduced }

/-- `Simulator.fill` of src/sim/simulator.ts (lines 28-77). The guard
`!o || o.qty <= 0 || !Number.isFinite(o.px)` reduces to `o.qty ≤ 0` here: `o`
is never null and every rational is finite. Note that the source pushes the
fill record before inspecting the side or the position map. -/
def SimState.fill (σ : SimState) (o : Order) : SimState :=
  if o.qty ≤ 0 then σ
  else
    let σ1 : SimState := { σ with fills := σ.fills ++ [fillRecordOf o] }
    match o.side with
    | Side.buy => σ1.applyBuy o
    | Side.sell => σ1.applySell o

/-- `Simulator.tryExit` of src/sim/simulator.ts (lines 83-105). `updateExit`
mutates the position high in place; when no exit decision fires, the stored
position therefore keeps the updated high watermark. -/
def SimState.tryExit (σ : SimState) (symbol : String) (lastPx now : ℚ) : SimState :=
  match alookup σ.positions symbol with
  | none => σ
  | some p =>
      match updateExit p lastPx now with
      | (p1, none) => { σ with positions := aset σ.positions symbol p1 }
      | (_, some decision) =>
          { σ with
            fills := σ.fills ++
              [{ ts := now, symbol := symbol, side := Side.sell, px := decision.px,
                 qty := p.qty, reason := some decision.reason }],
            cash := σ.cash + decision.px * p.qty,
            realizedPnl := σ.realizedPnl + (decision.px - p.avg) * p.qty,
            positions := adel σ.positions symbol }

/-- One ledger operation: an external `fill` or a bar-driven `tryExit`. -/
inductive SimOp where
  | fill (o : Order)
  | tryExit (symbol : String) (lastPx now : ℚ)
deriving DecidableEq, Repr

/-- Apply one ledger operation. -/
def SimState.step (σ : SimState) : SimOp → SimState
  | SimOp.fill o => σ.fill o
  | SimOp.tryExit symbol lastPx now => σ.tryExit symbol lastPx now

/-- Apply a sequence of ledger operations. -/
def SimState.runOps (σ : SimState) (ops : List SimOp) : SimState :=
  ops.foldl SimState.step σ

/-- The open-positions invariant: every stored position has strictly positive
quantity (so a symbol is a key of the map iff its quantity is positive; a
position reaching zero is deleted, never stored with `qty = 0`). -/
def PosInv (σ : SimState) : Prop := ∀ kp ∈ σ.positions, 0 < kp.2.qty

theorem updateExit_fst_qty (pos : Position) (lastPx now : ℚ) :
    ((updateExit pos lastPx now).1).qty = pos.qty := by
  simp only [updateExit]
  split_ifs <;> rfl

theorem posInv_applyBuy {σ : SimState} (h : PosInv σ) {o : Order}
    (hq1 : 0 < o.qty) : PosInv (σ.applyBuy o) := by
  unfold SimState.applyBuy
  cases hp : alookup σ.positions o.symbol with
  | none =>
      intro kp hkp
      replace hkp : kp ∈ aset σ.positions o.symbol
          { symbol := o.symbol, qty := o.qty, avg := o.px, openTs := o.ts, high := o.px } := by
        simpa [hp] using hkp
      rcases mem_aset hkp with h1 | h1
      · rw [h1]; exact hq1
      · exact h kp h1
  | some p =>
      have hpq : 0 < p.qty := h _ (alookup_mem hp)
      intro kp hkp
      replace hkp : kp ∈ aset σ.positions o.symbol
          { p with avg := (p.avg * p.qty + o.px * o.qty) / (p.qty + o.qty),
                   qty := p.qty + o.qty, high := max p.high o.px } := by
        simpa [hp] using hkp
      rcases mem_aset hkp with h1 | h1
      · rw [h1]; exact add_pos hpq hq1
      · exact h kp h1

theorem posInv_applySell {σ : SimState} (h : PosInv σ) (o : Order) :
    PosInv (σ.applySell o) := by
  unfold SimState.applySell
  cases hp : alookup σ.positions o.symbol with
  | none => exact h
  | some pos =>
      by_cases hts : min o.qty pos.qty ≤ 0
      · simpa [hts] using h
      · by_cases hz : pos.qty - min o.qty pos.qty = 0
        · intro kp hkp
          replace hkp : kp ∈ adel σ.positions o.symbol := by
            simpa [hts, hz] using hkp
          exact h kp (mem_adel hkp)
        · intro kp hkp
          replace hkp : kp ∈ aset σ.positions o.symbol
              { pos with qty := pos.qty - min o.qty pos.qty,
                         high := max pos.high o.px } := by
            simpa [hts, hz] using hkp
          rcases mem_aset hkp with h1 | h1
          · rw [h1]
            have hle : min o.qty pos.qty ≤ pos.qty := min_le_right _ _
            have h0 : 0 ≤ pos.qty - min o.qty pos.qty := by linarith
            exact lt_of_le_of_ne h0 (Ne.symm hz)
          · exact h kp h1

theorem posInv_fill {σ : SimState} (h : PosInv σ) (o : Order) : PosInv (σ.fill o) := by
  unfold SimState.fill
  by_cases hq : o.qty ≤ 0
  · simpa [hq] using h
  · have hq1 : 0 < o.qty := lt_of_not_ge hq
    rw [if_neg hq]
    have h1 : PosInv { σ with fills := σ.fills ++ [fillRecordOf o] } := h
    cases o.side with
    | buy => exact posInv_applyBuy h1 hq1
    | sell => exact posInv_applySell h1 o

theorem posInv_tryExit {σ : SimState} (h : PosInv σ) (symbol : String)
    (lastPx now : ℚ) : PosInv (σ.tryExit symbol lastPx now) := by
  unfold SimState.tryExit
  cases hp : alookup σ.positions symbol with
  | none => exact h
  | some p =>
      have hpq : 0 < p.qty := h _ (alookup_mem hp)
      cases hu : updateExit p lastPx now with
      | mk p1 dec =>
          have hq1 : p1.qty = p.qty := by
            have hqq := updateExit_fst_qty p lastPx now
            rw [hu] at hqq
            exact hqq
          cases dec with
          | none =>
              intro kp hkp
              replace hkp : kp ∈ aset σ.positions symbol p1 := by
                simpa [hu] using hkp
              rcases mem_aset hkp with h1 | h1
              · rw [h1]; simpa [hq1] using hpq
              · exact h kp h1
          | some decision =>
              intro kp hkp
              replace hkp : kp ∈ adel σ.positions symbol := by
                simpa [hu] using hkp
              exact h kp (mem_adel hkp)

theorem posInv_step {σ : SimState} (h : PosInv σ) (op : SimOp) : PosInv (σ.step op) := by
  cases op with
  | fill o => exact posInv_fill h o
  | tryExit symbol lastPx now => exact posInv_tryExit h symbol lastPx now

theorem posInv_runOps {σ : SimState} (h : PosInv σ) (ops : List SimOp) :
    PosInv (σ.runOps ops) := by
  induction ops generalizing σ with
  | nil => simpa [SimState.runOps] using h
  | cons op rest ih =>
      have h1 : PosInv (σ.step op) := posInv_step h op
      simpa [SimState.runOps, List.foldl_cons] using ih h1

/-! ### src/pipeline/priceConfirm.ts — the confirmation gate -/

/-- The `RollingWindow` class (lines 6-28 of src/pipeline/priceConfirm.ts):
a fixed-capacity FIFO of recent per-bar volumes. `WINDOW_SIZE` defaults to 60
(`process.env.VOL_WINDOW_SIZE ?? 60`). -/
structure RollingWindow where
  values : List ℚ
  capacity : ℕ
deriving DecidableEq, Repr

/-- `new RollingWindow(capacity)`. -/
def RollingWindow.mk0 (capacity : ℕ := 60) : RollingWindow :=
  { values := [], capacity := capacity }

/-- `push`: append, then `shift()` once if the length exceeds the capacity. -/
def RollingWindow.push (w : RollingWindow) (x : ℚ) : RollingWindow :=
  let vs := w.values ++ [x]
  { w with values := if w.capacity < vs.length then vs.drop 1 else vs }

/-- `last()`: the most recent value, if any. -/
def RollingWindow.lastVal (w : RollingWindow) : Option ℚ := w.values.getLast?

/-- `mean()`: 0 for an empty window, else the arithmetic mean. -/
def RollingWindow.mean (w : RollingWindow) : ℚ :=
  if w.values.length = 0 then 0 else w.values.sum / (w.values.length : ℚ)

/-- `std()`: 0 when `n ≤ 1`, else the square root of the sample variance
(`n − 1` denominator). `Math.sqrt` is the abstract parameter `sqrtFn`. -/
def RollingWindow.std (sqrtFn : ℚ → ℚ) (w : RollingWindow) : ℚ :=
  let n := w.values.length
  if n ≤ 1 then 0
  else
    let m := w.mean
    sqrtFn ((w.values.map (fun v => (v - m) * (v - m))).sum / ((n : ℚ) - 1))

/-- The `VwapAccumulator` type (line 31 of src/pipeline/priceConfirm.ts). -/
structure VwapAccumulator where
  priceVolume : ℚ
  volume : ℚ
deriving DecidableEq, Repr

/-- The module-level per-symbol state of src/pipeline/priceConfirm.ts
(lines 36-38): `volumeWindows`, `vwapAccumulators`, `referencePrices`. -/
structure MarketState where
  volumeWindows : List (String × RollingWindow)
  vwapAccumulators : List (String × VwapAccumulator)
  referencePrices : List (String × ℚ)
deriving DecidableEq, Repr

/-- The initial (module-load) market state: all three maps empty. -/
def MarketState.empty : MarketState :=
  { volumeWindows := [], vwapAccumulators := [], referencePrices := [] }

/-- `onAgg(symbol, close, volume)` (lines 52-61): push the volume into the
(created-on-demand) rolling window and accumulate the session VWAP sums. -/
def onAgg (st : MarketState) (symbol : String) (close volume : ℚ) : MarketState :=
  let win := (alookup st.volumeWindows symbol).getD (RollingWindow.mk0 60)
  let acc := (alookup st.vwapAccumulators symbol).getD { priceVolume := 0, volume := 0 }
  let acc1 : VwapAccumulator :=
    { priceVolume := acc.priceVolume + close * volume, volume := acc.volume + volume }
  { st with volumeWindows := aset st.volumeWindows symbol (win.push volume),
            vwapAccumulators := aset st.vwapAccumulators symbol acc1 }

/-- `setRef(symbol, px)` (lines 67-69): set the session reference price once;
later calls are no-ops. -/
def setRef (st : MarketState) (symbol : String) (px : ℚ) : MarketState :=
  match alookup st.referencePrices symbol with
  | none => { st with referencePrices := aset st.referencePrices symbol px }
  | some _ => st

/-- `getConfirm` line 76: `volumeWindows[symbol] ?? new RollingWindow(WINDOW_SIZE)`
(the fresh window is not stored). -/
def winOf (st : MarketState) (symbol : String) : RollingWindow :=
  (alookup st.volumeWindows symbol).getD (RollingWindow.mk0 60)

/-- `getConfirm` lines 78-81: `volZ = sdVol > 0 ? (lastVol - meanVol) / sdVol : 0`
with `lastVol = win.last() ?? 0`. -/
def volZOf (sqrtFn : ℚ → ℚ) (st : MarketState) (symbol : String) : ℚ :=
  let win := winOf st symbol
  let meanVol := win.mean
  let sdVol := win.std sqrtFn
  let lastVol := win.lastVal.getD 0
  if 0 < sdVol then (lastVol - meanVol) / sdVol else 0

/-- `getConfirm` lines 83-85: `vwapPx = acc && acc.volume > 0 ?
acc.priceVolume / acc.volume : priceNow`. -/
def vwapPxOf (st : MarketState) (symbol : String) (priceNow : ℚ) : ℚ :=
  match alookup st.vwapAccumulators symbol with
  | some acc => if 0 < acc.volume then acc.priceVolume / acc.volume else priceNow
  | none => priceNow

/-- `getConfirm` line 86: `vwapDev = priceNow / vwapPx - 1`. -/
def vwapDevOf (st : MarketState) (symbol : String) (priceNow : ℚ) : ℚ :=
  priceNow / vwapPxOf st symbol priceNow - 1

/-- `getConfirm` line 88: `ref = referencePrices[symbol] ?? vwapPx`. -/
def refOf (st : MarketState) (symbol : String) (priceNow : ℚ) : ℚ :=
  (alookup st.referencePrices symbol).getD (vwapPxOf st symbol priceNow)

/-- `getConfirm` line 89: `ret1m = priceNow / ref - 1`. -/
def ret1mOf (st : MarketState) (symbol : String) (priceNow : ℚ) : ℚ :=
  priceNow / refOf st symbol priceNow - 1

/-- The thresholds read from `cfg` by `getConfirm` (src/config.ts is not part
of the analysed sources, so they stay symbolic). -/
structure Cfg where
  VOL_Z_MIN : ℚ
  RET_1M_MIN : ℚ
  VWAP_DEV_MIN : ℚ
deriving DecidableEq, Repr

/-- The `ConfirmSignal` returned by `getConfirm`; `ts` is `Date.now()`,
modelled as the explicit argument `now`. -/
structure ConfirmSignal where
  symbol : String
  ts : ℚ
  price : ℚ
  volZ : ℚ
  ret1m : ℚ
  vwapDev : ℚ
  pass : Bool
deriving DecidableEq, Repr

/-- `getConfirm(symbol, priceNow)` of src/pipeline/priceConfirm.ts
(lines 75-104). The function body only reads the module state, so the state is
returned unchanged alongside the signal. -/
def getConfirm (cfg : Cfg) (sqrtFn : ℚ → ℚ) (st : MarketState) (symbol : String)
    (priceNow now : ℚ) : ConfirmSignal × MarketState :=
  let volZ := volZOf sqrtFn st symbol
  let vwapDev := vwapDevOf st symbol priceNow
  let ret1m := ret1mOf st symbol priceNow
  let pass : Bool := decide
    ((cfg.VOL_Z_MIN ≤ volZ ∧ cfg.RET_1M_MIN ≤ ret1m) ∨
     (cfg.VWAP_DEV_MIN ≤ vwapDev ∧ cfg.VOL_Z_MIN - 50 / 100 ≤ volZ))
  ({ symbol := symbol, ts := now, price := priceNow, volZ := volZ,
     ret1m := ret1m, vwapDev := vwapDev, pass := pass }, st)

/-! ### src/pipeline/score.ts — the impact scorer -/

/-- The `HighImpactEvent` / `EventClass` enumeration. -/
inductive EventClass where
  | PIVOTAL_TRIAL_SUCCESS
  | FDA_MARKETING_AUTH
  | FDA_ADCOM_POSITIVE
  | REGULATORY_DESIGNATION
  | TIER1_PARTNERSHIP
  | MAJOR_GOV_CONTRACT
  | GOVERNMENT_EQUITY_OR_GRANT
  | ACQUISITION_BUYOUT
  | IPO_DEBUT_POP
  | COURT_WIN_INJUNCTION
  | MEME_OR_INFLUENCER
  | RESTRUCTURING_OR_FINANCING
  | POLICY_OR_POLITICS_TAILWIND
  | EARNINGS_BEAT_OR_GUIDE_UP
  | INDEX_INCLUSION
  | UPLISTING_TO_NASDAQ
  | OTHER
deriving DecidableEq, Repr

/-- The `BASELINE` table of src/pipeline/score.ts (lines 5-23). Every class
has an entry, so the `?? BASELINE.OTHER` fallback never fires. -/
def BASELINE : EventClass → ℚ
  | EventClass.PIVOTAL_TRIAL_SUCCESS => 72 / 100
  | EventClass.FDA_MARKETING_AUTH => 70 / 100
  | EventClass.FDA_ADCOM_POSITIVE => 66 / 100
  | EventClass.REGULATORY_DESIGNATION => 54 / 100
  | EventClass.TIER1_PARTNERSHIP => 60 / 100
  | EventClass.MAJOR_GOV_CONTRACT => 60 / 100
  | EventClass.GOVERNMENT_EQUITY_OR_GRANT => 58 / 100
  | EventClass.ACQUISITION_BUYOUT => 64 / 100
  | EventClass.IPO_DEBUT_POP => 55 / 100
  | EventClass.COURT_WIN_INJUNCTION => 56 / 100
  | EventClass.MEME_OR_INFLUENCER => 50 / 100
  | EventClass.RESTRUCTURING_OR_FINANCING => 50 / 100
  | EventClass.POLICY_OR_POLITICS_TAILWIND => 44 / 100
  | EventClass.EARNINGS_BEAT_OR_GUIDE_UP => 52 / 100
  | EventClass.INDEX_INCLUSION => 50 / 100
  | EventClass.UPLISTING_TO_NASDAQ => 46 / 100
  | EventClass.OTHER => 20 / 100

/-- The outcomes of every regex test the scorer performs on the item text
`blob` (one Boolean per regex of src/pipeline/score.ts), plus the two derived
text predicates of step 12 (`hasBigPct`, `swingProfit`). Each of these is a
pure function of the text; a `ScoreCues` value is the record of their results
for one fixed `blob`. -/
structure ScoreCues where
  misinfo : Bool := false
  proxyAdvisor : Bool := false
  voteAdminOnly : Bool := false
  lawfirm : Bool := false
  awards : Bool := false
  securityUpdate : Bool := false
  investorConfs : Bool := false
  analyst : Bool := false
  mediaInterview : Bool := false
  shelfAtm : Bool := false
  specialDividend : Bool := false
  buybackDiv : Bool := false
  stratAlts : Bool := false
  dilutiveCore : Bool := false
  financingPremium : Bool := false
  financingStrategic : Bool := false
  financingGoing : Bool := false
  pivotal : Bool := false
  midStageWin : Bool := false
  toplineStrong : Bool := false
  preclinNhp : Bool := false
  cellModel : Bool := false
  hotDisease : Bool := false
  journal : Bool := false
  ceMark : Bool := false
  fda510k : Bool := false
  supplemental : Bool := false
  regProcess : Bool := false
  conference : Bool := false
  mnaDefinitive : Bool := false
  mnaWillAcquire : Bool := false
  mnaPerPrice : Bool := false
  mnaTender : Bool := false
  mnaRevised : Bool := false
  mnaCashStock : Bool := false
  mnaLoiAny : Bool := false
  mnaAdmin : Bool := false
  assetSale : Bool := false
  propertyAcq : Bool := false
  govRoutine : Bool := false
  indexMajor : Bool := false
  indexMinor : Bool := false
  cryptoBuy : Bool := false
  cryptoDiscuss : Bool := false
  antiDilutionPos : Bool := false
  listingCompliance : Bool := false
  largeDollar : Bool := false
  superlative : Bool := false
  bigMove : Bool := false
  finResults : Bool := false
  earningsBeat : Bool := false
  tier1Name : Bool := false
  tier1Verbs : Bool := false
  hasBigPct : Bool := false
  swingProfit : Bool := false
deriving DecidableEq, Repr

/-- The per-item body of `score` in src/pipeline/score.ts (lines 185-373),
translated step by step (the numbered comments match the source). `c` holds
the regex results on the item text, `isWire` the result of
`isWirePR(it.url, blob)`, `marketCap` is `it.marketCap` and `nSymbols` is
`it.symbols?.length || 0`. -/
def scoreOne (c : ScoreCues) (isWire : Bool) (klass : EventClass)
    (marketCap : Option ℚ) (nSymbols : ℕ) : ℚ :=
  -- 0) hard suppress misinformation
  if c.misinfo then 0
  else
    -- 1) baseline
    let s := BASELINE klass
    -- 2) early caps for frequent non-catalysts
    let s := if c.proxyAdvisor ∨ c.voteAdminOnly then min s (20 / 100) else s
    let s := if c.lawfirm then min s (12 / 100) else s
    let s := if c.awards then min s (18 / 100) else s
    let s := if c.securityUpdate then min s (16 / 100) else s
    let s := if c.investorConfs then min s (16 / 100) else s
    let s := if c.analyst ∨ c.mediaInterview then min s (16 / 100) else s
    let s := if c.shelfAtm then min s (18 / 100) else s
    let s := if ¬c.specialDividend ∧ c.buybackDiv then min s (20 / 100) else s
    let s := if c.stratAlts then min s (30 / 100) else s
    -- 3) dilutive financing suppression (unless clear positives)
    let isPlainDilutive := c.dilutiveCore ∧
      ¬(c.financingPremium ∨ c.financingStrategic ∨ c.financingGoing)
    let s := if isPlainDilutive then min s (18 / 100) else s
    -- 4) bio nuance
    let s :=
      if klass = EventClass.PIVOTAL_TRIAL_SUCCESS then
        let s := if c.pivotal then s + 5 / 100
                 else if c.midStageWin then s + 5 / 100 else s
        let s := if ¬c.toplineStrong then s - 5 / 100 else s
        let s := if c.preclinNhp then s + 6 / 100 else s
        let s := if c.cellModel then s + (if c.hotDisease then 6 / 100 else 4 / 100) else s
        let s := if c.journal ∧ c.toplineStrong then s + 4 / 100 else s
        s
      else s
    -- 5) approvals split (cap lighter EU/510k/supplemental)
    let s :=
      if klass = EventClass.FDA_MARKETING_AUTH then
        let s := if c.ceMark then min s (46 / 100) else s
        let s := if c.fda510k then min s (46 / 100) else s
        let s := if c.supplemental then min s (58 / 100) else s
        s
      else s
    -- 6) process/journal/conference guards (unless strong outcomes)
    let hasStrongOutcome := c.toplineStrong ∨ c.pivotal ∨ c.midStageWin
    let s :=
      if ¬hasStrongOutcome then
        let s := if c.regProcess then min s (42 / 100) else s
        let s := if c.journal then min s (42 / 100) else s
        let s := if c.conference then min s (38 / 100) else s
        s
      else s
    -- 7) M&A specifics
    let s :=
      if klass = EventClass.ACQUISITION_BUYOUT then
        let definitive := c.mnaDefinitive ∨ (c.mnaWillAcquire ∧ c.mnaPerPrice)
        let s := if definitive then s + 6 / 100 else s
        let s := if c.mnaTender then s + 4 / 100 else s
        let s := if c.mnaRevised then s + 6 / 100 else s
        let s := if c.mnaCashStock then s + 2 / 100 else s
        let s := if c.mnaPerPrice then s + 2 / 100 else s
        let s := if c.mnaLoiAny then s - 6 / 100 else s
        let s := if c.mnaAdmin then min s (40 / 100) else s
        let s := if c.assetSale ∨ c.propertyAcq then min s (40 / 100) else s
        s
      else s
    -- 8) gov contracts: routine follow-on cap
    let s := if klass = EventClass.MAJOR_GOV_CONTRACT ∧ c.govRoutine
             then min s (48 / 100) else s
    -- 9) index inclusion: major vs minor
    let s :=
      if klass = EventClass.INDEX_INCLUSION then
        let s := if c.indexMajor then s + 4 / 100 else s
        let s := if c.indexMinor then min s (40 / 100) else s
        s
      else s
    -- 10) wire presence modulation for catalyst-y labels
    let wireSensitive :=
      klass = EventClass.PIVOTAL_TRIAL_SUCCESS ∨
      klass = EventClass.FDA_MARKETING_AUTH ∨
      klass = EventClass.FDA_ADCOM_POSITIVE ∨
      klass = EventClass.TIER1_PARTNERSHIP ∨
      klass = EventClass.MAJOR_GOV_CONTRACT ∨
      klass = EventClass.GOVERNMENT_EQUITY_OR_GRANT ∨
      klass = EventClass.ACQUISITION_BUYOUT ∨
      klass = EventClass.EARNINGS_BEAT_OR_GUIDE_UP ∨
      klass = EventClass.INDEX_INCLUSION ∨
      klass = EventClass.UPLISTING_TO_NASDAQ
    let tier1Powered := c.tier1Name ∧ c.tier1Verbs
    let s :=
      if wireSensitive then
        let definitiveMnaOffWire :=
          klass = EventClass.ACQUISITION_BUYOUT ∧ ¬(isWire = true) ∧
          (c.mnaDefinitive ∨ (c.mnaWillAcquire ∧ c.mnaPerPrice))
        if ¬(definitiveMnaOffWire ∨ tier1Powered) then
          if isWire then s + 4 / 100 else min s (48 / 100)
        else s
      else s
    -- 11) crypto treasury
    let s :=
      if klass = EventClass.RESTRUCTURING_OR_FINANCING ∨ c.cryptoBuy ∨ c.cryptoDiscuss then
        let s := if c.cryptoBuy then s + 14 / 100 else s
        let s := if c.cryptoDiscuss then s + 10 / 100 else s
        let s := if c.largeDollar then s + 4 / 100 else s
        s
      else s
    -- 12) generic results cap unless beat/raise OR strong exceptions
    let s :=
      if c.finResults ∧ ¬c.earningsBeat then
        if c.hasBigPct ∨ c.swingProfit then
          s + (if c.swingProfit then 10 / 100 else 8 / 100)
        else min s (32 / 100)
      else s
    -- 13) positive financing exception
    let s := if c.antiDilutionPos then s + 12 / 100 else s
    -- 14) listing compliance regained
    let s := if c.listingCompliance then s + 12 / 100 else s
    -- 15) special cash dividend
    let s := if c.specialDividend then s + 14 / 100 else s
    -- 16) generic boosters
    let isSmallCap : Bool :=
      match marketCap with
      | some m => decide (0 < m ∧ m < 1000000000)
      | none => false
    let s := if isSmallCap then s + 14 / 100 else s
    let s := if c.superlative then s + 4 / 100 else s
    let s := if c.largeDollar then s + 6 / 100 else s
    let s := if c.bigMove then s + 6 / 100 else s
    let s := if nSymbols = 1 then s + 3 / 100 else s
    -- bound [0, 1]
    max 0 (min 1 s)

/-- A `ClassifiedItem` as consumed by the scorer: the news item fields the
scorer reads (`title`, `summary`, `url`, `symbols`, `marketCap`) plus the
classification (`klass`) and the score slot it rewrites. -/
structure ClassifiedItem where
  title : String
  summary : String
  url : Option String
  symbols : List String
  marketCap : Option ℚ
  klass : EventClass
  score : ℚ
deriving DecidableEq, Repr

/-- The text blob the scorer tests: `${it.title ?? ""} ${it.summary ?? ""}`. -/
def blobOf (it : ClassifiedItem) : String := it.title ++ " " ++ it.summary

/-- `score(items)` of src/pipeline/score.ts (lines 184-375): map each item to
a copy whose `score` field is recomputed. `rx` is the oracle giving, for a
text, the outcomes of all regex tests of the file; `wirePR` is `isWirePR`. -/
def score (rx : String → ScoreCues) (wirePR : Option String → String → Bool)
    (items : List ClassifiedItem) : List ClassifiedItem :=
  items.map fun it =>
    let s := scoreOne (rx (blobOf it)) (wirePR it.url (blobOf it))
      it.klass it.marketCap it.symbols.length
    { it with score := s }

/-! ### src/pipeline/classify.ts — the event classifier -/

/-- The outcomes of every `PAT.*` regex test (and the few inline regex tests)
that `classifyOne` performs on the normalized text `x`, plus `isPR`
(`isWirePR(url, x)`). Each is a pure function of the item; a `ClassifyCues`
value is the record of their results for one fixed item. -/
structure ClassifyCues where
  securityIncident : Bool := false
  awardsPR : Bool := false
  proxyAdvisor : Bool := false
  voteAdminOnly : Bool := false
  investorConfs : Bool := false
  lawFirmPR : Bool := false
  shelfOrATM : Bool := false
  analystMedia : Bool := false
  typoErratum : Bool := false
  plainDilution : Bool := false
  dilutionException : Bool := false
  isPR : Bool := false
  approval : Bool := false
  adcom : Bool := false
  pivotal : Bool := false
  topline : Bool := false
  designation : Bool := false
  mnaBinding : Bool := false
  mnaWillAcquire : Bool := false
  mnaPerShareOrValue : Bool := false
  mnaNonBinding : Bool := false
  mnaAdminOnly : Bool := false
  mnaAssetOrProperty : Bool := false
  partnershipAny : Bool := false
  contractAny : Bool := false
  dealSigned : Bool := false
  govWords : Bool := false
  govEquity : Bool := false
  govRoutine : Bool := false
  verbsTier1 : Bool := false
  tier1 : Bool := false
  nameDropContext : Bool := false
  earningsBeatGuideUp : Bool := false
  financialResultsOnly : Bool := false
  swingToProfit : Bool := false
  bigPercentGrowth : Bool := false
  indexInclusion : Bool := false
  uplist : Bool := false
  listingCompliance : Bool := false
  courtWin : Bool := false
  memeOrInfluencer : Bool := false
  cryptoTreasuryBuy : Bool := false
  cryptoTreasuryDiscuss : Bool := false
  antiDilutionPositive : Bool := false
  largeDollars : Bool := false
  scale : Bool := false
deriving DecidableEq, Repr

/-- The `push(ok, label, w, why)` helper of `classifyOne`: contribute a hit
when the detector fires (the `why` tag carries no semantics and is dropped). -/
def pushIf (ok : Bool) (label : EventClass) (w : ℚ) : List (EventClass × ℚ) :=
  if ok then [(label, w)] else []

/-- `[...by.entries()].sort((a, b) => b[1] - a[1])[0]`: the first entry of the
stable descending sort, i.e. the earliest-inserted entry of maximal weight. -/
def topEntry : List (EventClass × ℚ) → Option (EventClass × ℚ)
  | [] => none
  | e :: rest => some (rest.foldl (fun best x => if best.2 < x.2 then x else best) e)

/-- The positive-rule part of `classifyOne` (src/pipeline/classify.ts,
lines 367-523): detector hits in source order, per-label aggregation in a
`Map` (insertion-ordered), synergy boosts, the total/strong-catalyst gate and
the top-entry selection. -/
def classifyPositive (c : ClassifyCues) : EventClass × ℚ :=
  let binding := c.mnaBinding ∨ (c.mnaWillAcquire ∧ c.mnaPerShareOrValue)
  let govContract := c.govWords ∧ c.contractAny
  let isPartnership := c.partnershipAny ∨ c.contractAny ∨ c.dealSigned ∨
    (c.tier1 ∧ c.verbsTier1)
  let hasTier1 := c.tier1
  let hasScale := c.largeDollars ∨ c.scale
  let nameDropOnly := hasTier1 ∧ ¬isPartnership ∧ c.nameDropContext
  let beatOrGuide := c.earningsBeatGuideUp
  let strongExceptions := c.swingToProfit ∨ c.bigPercentGrowth
  let hits : List (EventClass × ℚ) :=
    pushIf (c.isPR ∧ c.approval) EventClass.FDA_MARKETING_AUTH 10 ++
    pushIf (c.isPR ∧ c.adcom) EventClass.FDA_ADCOM_POSITIVE 8 ++
    pushIf (c.isPR ∧ (c.pivotal ∨ c.topline)) EventClass.PIVOTAL_TRIAL_SUCCESS 9 ++
    pushIf (c.isPR ∧ c.designation) EventClass.REGULATORY_DESIGNATION 6 ++
    pushIf (binding ∧ ¬c.mnaNonBinding ∧ ¬c.mnaAdminOnly ∧ ¬c.mnaAssetOrProperty)
      EventClass.ACQUISITION_BUYOUT 9 ++
    pushIf (c.mnaNonBinding ∨ c.mnaAdminOnly ∨ c.mnaAssetOrProperty) EventClass.OTHER 2 ++
    pushIf (c.isPR ∧ govContract ∧ ¬c.govRoutine) EventClass.MAJOR_GOV_CONTRACT 8 ++
    pushIf (c.isPR ∧ govContract ∧ c.govRoutine) EventClass.OTHER 2 ++
    pushIf c.govEquity EventClass.GOVERNMENT_EQUITY_OR_GRANT 9 ++
    pushIf (isPartnership ∧ (hasTier1 ∨ hasScale) ∧ ¬nameDropOnly)
      EventClass.TIER1_PARTNERSHIP (if hasTier1 then 8 else 6) ++
    pushIf (¬isPartnership ∧ nameDropOnly) EventClass.MEME_OR_INFLUENCER 4 ++
    pushIf (beatOrGuide ∨ (c.financialResultsOnly ∧ strongExceptions))
      EventClass.EARNINGS_BEAT_OR_GUIDE_UP (if beatOrGuide then 6 else 5) ++
    pushIf c.indexInclusion EventClass.INDEX_INCLUSION 3 ++
    pushIf c.uplist EventClass.UPLISTING_TO_NASDAQ 5 ++
    pushIf c.listingCompliance EventClass.UPLISTING_TO_NASDAQ 6 ++
    pushIf c.courtWin EventClass.COURT_WIN_INJUNCTION 6 ++
    pushIf c.memeOrInfluencer EventClass.MEME_OR_INFLUENCER 6 ++
    pushIf c.cryptoTreasuryBuy EventClass.RESTRUCTURING_OR_FINANCING 7 ++
    pushIf c.cryptoTreasuryDiscuss EventClass.RESTRUCTURING_OR_FINANCING 6 ++
    pushIf c.antiDilutionPositive EventClass.RESTRUCTURING_OR_FINANCING 7 ++
    pushIf (c.financialResultsOnly ∧ ¬c.earningsBeatGuideUp ∧ ¬c.swingToProfit ∧
      ¬c.bigPercentGrowth) EventClass.OTHER (-4)
  if hits = [] then (EventClass.OTHER, 0)
  else
    let byLabel := hits.foldl
      (fun m lw => aset m lw.1 ((alookup m lw.1).getD 0 + lw.2)) []
    let byLabel :=
      if (alookup byLabel EventClass.PIVOTAL_TRIAL_SUCCESS).isSome ∧
         (alookup byLabel EventClass.FDA_MARKETING_AUTH).isSome then
        aset byLabel EventClass.FDA_MARKETING_AUTH
          ((alookup byLabel EventClass.FDA_MARKETING_AUTH).getD 0 + 3)
      else byLabel
    let byLabel :=
      if ((alookup byLabel EventClass.TIER1_PARTNERSHIP).isSome ∨
          (alookup byLabel EventClass.MAJOR_GOV_CONTRACT).isSome ∨
          (alookup byLabel EventClass.GOVERNMENT_EQUITY_OR_GRANT).isSome) ∧
         (c.largeDollars ∨ c.scale) then
        aset byLabel EventClass.OTHER ((alookup byLabel EventClass.OTHER).getD 0 + 2)
      else byLabel
    let total := (byLabel.map (fun lw => lw.2)).sum
    let strongCatalyst :=
      8 ≤ (alookup byLabel EventClass.ACQUISITION_BUYOUT).getD 0 ∨
      8 ≤ (alookup byLabel EventClass.FDA_MARKETING_AUTH).getD 0 ∨
      8 ≤ (alookup byLabel EventClass.PIVOTAL_TRIAL_SUCCESS).getD 0 ∨
      8 ≤ (alookup byLabel EventClass.MAJOR_GOV_CONTRACT).getD 0 ∨
      7 ≤ (alookup byLabel EventClass.RESTRUCTURING_OR_FINANCING).getD 0 ∨
      6 ≤ (alookup byLabel EventClass.UPLISTING_TO_NASDAQ).getD 0
    if total ≤ 0 ∧ ¬strongCatalyst then (EventClass.OTHER, 0)
    else
      match topEntry byLabel with
      | some top => top
      | none => (EventClass.OTHER, 0)

/-- `classifyOne(it)` of src/pipeline/classify.ts (lines 340-524): the hard
guards / early exits of lines 346-365 in their fixed source order, then the
positive rules. -/
def classifyOne (c : ClassifyCues) : EventClass × ℚ :=
  if c.securityIncident then (EventClass.OTHER, 0)
  else if c.awardsPR then (EventClass.OTHER, 0)
  else if (c.proxyAdvisor ∨ c.voteAdminOnly) ∧ ¬c.mnaBinding then (EventClass.OTHER, 0)
  else if c.investorConfs then (EventClass.OTHER, 0)
  else if c.lawFirmPR then (EventClass.OTHER, 0)
  else if c.shelfOrATM then (EventClass.OTHER, 0)
  else if c.analystMedia then (EventClass.OTHER, 0)
  else if c.typoErratum then (EventClass.OTHER, 0)
  else if c.plainDilution ∧ ¬c.dilutionException then (EventClass.OTHER, 10 / 100)
  else classifyPositive c

/-! ## Theorems for the specification claims -/

/-- C1, counterexample. For `price = $2.00`, `riskPct = 1%`, `equity = $10,000`
the position sizer returns `qty = 625`, not the `qty = 2500` the claim states:
the MAX_NOTIONAL cap is applied with `Math.min`, so it can only lower the
risk-based quantity 625 (the cap bound `⌊5000 / 2⌋ = 2500` is not binding). -/
theorem simulateEntry_qty_example_not_2500 :
    (simulateEntry "X" 2 0 (1 / 100) 10000).qty = 625 ∧ (625 : ℚ) ≠ 2500 := by
  constructor
  · norm_num [simulateEntry, entryQtyOf, rawQtyOf, perShareRiskOf, stopPxOf,
      cleanPxOf, maxQtyByNotionalOf, jsRound]
  · norm_num

/-- C1, amended. For `price = $2.00`, `riskPct = 1%`, `equity = $10,000` the
sizer computes the stop at $1.84 (8% below price), risk-per-share $0.16, a raw
risk-based quantity of 625 and a MAX_NOTIONAL quantity bound of 2500; the cap
does not bind and the returned order has `qty = 625` (for any `now`); and the
returned quantity is never negative for any input. -/
theorem simulateEntry_sizing :
    (∀ (symbol : String) (px now riskPct equity : ℚ),
        0 ≤ (simulateEntry symbol px now riskPct equity).qty) ∧
    stopPxOf 2 = 184 / 100 ∧
    perShareRiskOf 2 = 16 / 100 ∧
    rawQtyOf 2 (1 / 100) 10000 = 625 ∧
    maxQtyByNotionalOf 2 = 2500 ∧
    (∀ now : ℚ, (simulateEntry "X" 2 now (1 / 100) 10000).qty = 625) := by
  refine ⟨?_,
    by norm_num [stopPxOf, cleanPxOf, jsRound],
    by norm_num [perShareRiskOf, stopPxOf, cleanPxOf, jsRound],
    by norm_num [rawQtyOf, perShareRiskOf, stopPxOf, cleanPxOf, jsRound],
    by norm_num [maxQtyByNotionalOf, cleanPxOf, jsRound],
    fun now => by norm_num [simulateEntry, entryQtyOf, rawQtyOf, perShareRiskOf,
      stopPxOf, cleanPxOf, maxQtyByNotionalOf, jsRound]⟩
  intro symbol px now riskPct equity
  by_cases h : entryQtyOf px riskPct equity ≤ 0
  · simp [simulateEntry, h]
  · simp only [simulateEntry, if_neg h]
    push_neg at h
    exact_mod_cast h.le

/-- C2, counterexample. A fresh simulator holds no position for `"A"`, yet
`fill` on a sell order for `"A"` appends a fill record: the source pushes onto
`this.fills` (lines 31-37) before the sell branch discovers that there is no
position (line 62), so the "no fill record is appended" part of the claim is
false. -/
theorem fill_sell_no_position_appends_fill :
    alookup (SimState.init 100000).positions "A" = none ∧
    ((SimState.init 100000).fill
        { side := Side.sell, symbol := "A", qty := 1, ts := 0, px := 1 }).fills =
      [{ ts := 0, symbol := "A", side := Side.sell, px := 1, qty := 1 }] := by
  exact ⟨rfl, rfl⟩

/-- C2, amended. For every sell order with positive quantity on a symbol with
no open position, `fill` leaves cash, the open-positions map and realized P&L
unchanged, but it does append the fill record for the order to the fill list
(the fills log records every well-formed order, accepted or not). -/
theorem fill_sell_no_position (σ : SimState) (o : Order)
    (hside : o.side = Side.sell)
    (hpos : alookup σ.positions o.symbol = none)
    (hq : 0 < o.qty) :
    σ.fill o = { σ with fills := σ.fills ++ [fillRecordOf o] } := by
  simp only [SimState.fill, if_neg (not_le.mpr hq), hside, SimState.applySell]
  simp [hpos]

/-- C2, witness for the amended theorem at a concrete input. -/
theorem fill_sell_no_position_witness :
    (SimState.init 100000).fill
        { side := Side.sell, symbol := "A", qty := 1, ts := 0, px := 1 } =
      { SimState.init 100000 with fills :=
          [{ ts := 0, symbol := "A", side := Side.sell, px := 1, qty := 1 }] } :=
  fill_sell_no_position (SimState.init 100000)
    { side := Side.sell, symbol := "A", qty := 1, ts := 0, px := 1 }
    rfl rfl (by norm_num)

/-- C6. Every sequence of `fill` and `tryExit` operations starting from a
fresh (or reset) simulator keeps the invariant that every symbol stored in the
open-positions map has strictly positive quantity: a position reaching zero is
deleted (sell branch line 71-72, `tryExit` line 104), never stored with
`qty = 0`. A symbol is therefore a key of the map iff it holds a position of
positive quantity. -/
theorem ledger_positions_positive (startingCash : ℚ) (ops : List SimOp)
    (symbol : String) (p : Position)
    (h : alookup ((SimState.init startingCash).runOps ops).positions symbol = some p) :
    0 < p.qty := by
  have hinv : PosInv (SimState.init startingCash) := by
    intro kp hkp
    simp [SimState.init] at hkp
  exact posInv_runOps hinv ops _ (alookup_mem h)

/-- C6, witness: after a buy of 2 shares and a partial sell of 1, the stored
position for `"A"` has quantity 1 > 0. -/
theorem ledger_positions_positive_witness :
    0 < ({ symbol := "A", qty := 1, avg := 5, openTs := 0, high := 6 } : Position).qty :=
  ledger_positions_positive 100000
    [SimOp.fill { side := Side.buy, symbol := "A", qty := 2, ts := 0, px := 5 },
     SimOp.fill { side := Side.sell, symbol := "A", qty := 1, ts := 1, px := 6 }]
    "A" _ (by
      norm_num [SimState.runOps, List.foldl, SimState.step, SimState.fill,
        SimState.applyBuy, SimState.applySell, SimState.init, fillRecordOf,
        alookup, aset, adel, min_def, max_def])

/-- C7. `updateExit` first updates the session high to `max(high, lastPx)`
(the returned position), and the trailing-stop rule has priority: whenever the
price sits at least 12% below the updated session high the decision is
`trail`, regardless of the time-stop condition. In particular, for a position
with `avg = $10`, `high = $12` and `lastPrice = $10.50` (gain 5%,
drawdown-from-high −12.5%) the trailing stop fires for every `now` — the time
stop is never reached. -/
theorem updateExit_priority :
    (∀ (pos : Position) (lastPx now : ℚ),
        (updateExit pos lastPx now).1 = { pos with high := max pos.high lastPx } ∧
        (lastPx / max pos.high lastPx - 1 ≤ -(12 / 100) →
          (updateExit pos lastPx now).2 = some { reason := "trail", px := lastPx })) ∧
    (∀ (q ts now : ℚ),
        (updateExit { symbol := "S", qty := q, avg := 10, openTs := ts, high := 12 }
            (1050 / 100) now).2 = some { reason := "trail", px := 1050 / 100 }) := by
  constructor
  · intro pos lastPx now
    constructor
    · simp only [updateExit]
      split_ifs <;> rfl
    · intro h
      simp only [updateExit]
      rw [if_pos h]
  · intro q ts now
    simp only [updateExit]
    rw [if_pos]
    show (1050 : ℚ) / 100 / max 12 (1050 / 100) - 1 ≤ -(12 / 100)
    rw [max_eq_left (by norm_num)]
    norm_num

/-- C7, witness for the general conjunct at a concrete position. -/
theorem updateExit_priority_witness :
    (updateExit { symbol := "T", qty := 3, avg := 10, openTs := 0, high := 12 }
        (1050 / 100) 99).2 = some { reason := "trail", px := 1050 / 100 } :=
  (updateExit_priority.1 _ _ _).2 (by
    rw [show max (12 : ℚ) (1050 / 100) = 12 from max_eq_left (by norm_num)]
    norm_num)

/-- C9. `tryExit` on a symbol with no open position is a complete no-op: the
state (fills, cash, positions, realized P&L) is returned unchanged, for every
`lastPx` and `now`. -/
theorem tryExit_no_position (σ : SimState) (symbol : String) (lastPx now : ℚ)
    (h : alookup σ.positions symbol = none) :
    σ.tryExit symbol lastPx now = σ := by
  unfold SimState.tryExit
  rw [h]

/-- C9, witness at a concrete input. -/
theorem tryExit_no_position_witness :
    (SimState.init 100000).tryExit "A" 7 3 = SimState.init 100000 :=
  tryExit_no_position (SimState.init 100000) "A" 7 3 rfl

/-- C4. The confirmation gate ands/ors exactly the spec formula: the pass flag
is true iff `(volZ ≥ VOL_Z_MIN ∧ ret1m ≥ RET_1M_MIN) ∨ (vwapDev ≥ VWAP_DEV_MIN
∧ volZ ≥ VOL_Z_MIN − 0.5)`, where `volZ`, `ret1m` and `vwapDev` are computed
from the current per-symbol rolling-volume window, VWAP accumulator and
reference price (`volZOf`, `ret1mOf`, `vwapDevOf`). Stated for every
threshold configuration, market state, symbol and price. -/
theorem getConfirm_pass_formula (cfg : Cfg) (sqrtFn : ℚ → ℚ) (st : MarketState)
    (symbol : String) (priceNow now : ℚ) :
    (getConfirm cfg sqrtFn st symbol priceNow now).1.pass = true ↔
      ((cfg.VOL_Z_MIN ≤ volZOf sqrtFn st symbol ∧
        cfg.RET_1M_MIN ≤ ret1mOf st symbol priceNow) ∨
       (cfg.VWAP_DEV_MIN ≤ vwapDevOf st symbol priceNow ∧
        cfg.VOL_Z_MIN - 50 / 100 ≤ volZOf sqrtFn st symbol)) := by
  simp [getConfirm]

/-- C8, counterexample. The claim quantifies over every current price, but at
`priceNow = 0` (with no VWAP accumulator) the source computes
`vwapDev = 0 / 0 - 1`: an actual division by zero, which yields `NaN` in the
JS source — not 0. In the rational model, where `0 / 0 = 0`, the result is
`-1`, likewise different from the claimed 0; and the fallback VWAP price (the
divisor) is 0. -/
theorem getConfirm_vwapDev_zero_price :
    vwapPxOf MarketState.empty "A" 0 = 0 ∧
    (getConfirm ⟨0, 0, 0⟩ (fun _ => 0) MarketState.empty "A" 0 0).1.vwapDev = -1 := by
  constructor
  · rfl
  · simp [getConfirm, vwapDevOf, vwapPxOf, MarketState.empty, alookup]

/-- C8, amended. For every symbol whose session VWAP accumulator is absent or
has zero accumulated volume, and every nonzero current price, the VWAP price
falls back to the current price (so the deviation quotient has a nonzero
denominator — no division by zero) and the returned `vwapDev` is 0. -/
theorem getConfirm_vwapDev_zero_volume (st : MarketState) (symbol : String)
    (priceNow : ℚ)
    (hacc : alookup st.vwapAccumulators symbol = none ∨
      ∃ acc, alookup st.vwapAccumulators symbol = some acc ∧ acc.volume = 0)
    (hp : priceNow ≠ 0) :
    vwapPxOf st symbol priceNow = priceNow ∧
    ∀ (cfg : Cfg) (sqrtFn : ℚ → ℚ) (now : ℚ),
      (getConfirm cfg sqrtFn st symbol priceNow now).1.vwapDev = 0 := by
  have hv : vwapPxOf st symbol priceNow = priceNow := by
    unfold vwapPxOf
    rcases hacc with h | ⟨acc, h, hvol⟩
    · rw [h]
    · rw [h]
      simp [hvol]
  refine ⟨hv, ?_⟩
  intro cfg sqrtFn now
  simp [getConfirm, vwapDevOf, hv, div_self hp]

/-- C8, witness for the amended theorem at a concrete input. -/
theorem getConfirm_vwapDev_zero_volume_witness :
    (getConfirm ⟨0, 0, 0⟩ (fun _ => 0) MarketState.empty "A" 1 0).1.vwapDev = 0 :=
  (getConfirm_vwapDev_zero_volume MarketState.empty "A" 1
    (Or.inl rfl) (by norm_num)).2 ⟨0, 0, 0⟩ (fun _ => 0) 0

/-- C10. `getConfirm` is read-only on the market state: the state it passes
back is the input state unchanged (the source body contains no assignment to
`volumeWindows`, `vwapAccumulators` or `referencePrices`), and two consecutive
calls with the same symbol and price — at arbitrary wall-clock times — return
the same `volZ`, `ret1m`, `vwapDev` and `pass`. -/
theorem getConfirm_readonly (cfg : Cfg) (sqrtFn : ℚ → ℚ) (st : MarketState)
    (symbol : String) (priceNow now1 now2 : ℚ) :
    (getConfirm cfg sqrtFn st symbol priceNow now1).2 = st ∧
    ((getConfirm cfg sqrtFn (getConfirm cfg sqrtFn st symbol priceNow now1).2
        symbol priceNow now2).1.volZ =
      (getConfirm cfg sqrtFn st symbol priceNow now1).1.volZ ∧
     (getConfirm cfg sqrtFn (getConfirm cfg sqrtFn st symbol priceNow now1).2
        symbol priceNow now2).1.ret1m =
      (getConfirm cfg sqrtFn st symbol priceNow now1).1.ret1m ∧
     (getConfirm cfg sqrtFn (getConfirm cfg sqrtFn st symbol priceNow now1).2
        symbol priceNow now2).1.vwapDev =
      (getConfirm cfg sqrtFn st symbol priceNow now1).1.vwapDev ∧
     (getConfirm cfg sqrtFn (getConfirm cfg sqrtFn st symbol priceNow now1).2
        symbol priceNow now2).1.pass =
      (getConfirm cfg sqrtFn st symbol priceNow now1).1.pass) :=
  ⟨rfl, rfl, rfl, rfl, rfl⟩

/-- C5. The classifier hard guards dominate: every item whose normalized text
matches the law-firm pattern (`PAT.lawFirmPR`) or the awards-PR pattern
(`PAT.awardsPR`) is classified `OTHER` with raw score 0, regardless of every
other detector outcome (all remaining cue fields are universally quantified,
so any combination of positive matches in the same text is covered). -/
theorem classifyOne_guards_dominate (c : ClassifyCues)
    (h : c.lawFirmPR = true ∨ c.awardsPR = true) :
    classifyOne c = (EventClass.OTHER, 0) := by
  unfold classifyOne
  rcases h with h | h <;> split_ifs <;> rfl

/-- C5, witness: a cue record with the law-firm pattern matched together with
several positive detectors (wire approval, binding M&A) still yields
`(OTHER, 0)`. -/
theorem classifyOne_guards_dominate_witness :
    classifyOne
      ({ lawFirmPR := true, isPR := true, approval := true,
         mnaBinding := true, tier1 := true, partnershipAny := true } : ClassifyCues) =
      (EventClass.OTHER, 0) :=
  classifyOne_guards_dominate _ (Or.inl rfl)

/-- C3, counterexample. Two classified items with the same class (`OTHER`) and
the same title-plus-summary text (title `"a"`, empty summary) receive
different scores, because the scorer also reads `marketCap`: the sub-$1B item
gets the +0.14 small-cap booster (0.34) while the item without a market cap
stays at the 0.20 baseline. The oracles used are the source regex outcomes for
the blob `"a "`: every regex of src/pipeline/score.ts requires words or digit
patterns absent from `"a "`, so all cues are false, and with no URL and no
wire token in the text `isWirePR` is false. -/
theorem score_not_function_of_class_and_text :
    (score (fun _ => {}) (fun _ _ => false)
      [{ title := "a", summary := "", url := none, symbols := [],
         marketCap := some 500000000, klass := EventClass.OTHER, score := 0 },
       { title := "a", summary := "", url := none, symbols := [],
         marketCap := none, klass := EventClass.OTHER, score := 0 }]).map
        (fun it => it.score) = [34 / 100, 20 / 100] ∧
    (34 : ℚ) / 100 ≠ 20 / 100 := by
  constructor
  · have e : (score (fun _ => {}) (fun _ _ => false)
        [{ title := "a", summary := "", url := none, symbols := [],
           marketCap := some 500000000, klass := EventClass.OTHER, score := 0 },
         { title := "a", summary := "", url := none, symbols := [],
           marketCap := none, klass := EventClass.OTHER, score := 0 }]).map
          (fun it => it.score) =
        [max 0 (min 1 (20 / 100 + 14 / 100)), max 0 (min 1 (20 / 100))] := rfl
    rw [e]
    norm_num
  · norm_num

/-- C3, amended. The scorer is pure and deterministic in the fields it reads —
class, title-plus-summary text, url, market cap and symbol count — but not in
class and text alone: two items agreeing on all five read fields receive the
same score (for every regex/wire oracle), and re-scoring an already-scored
batch is the identity on it (the stored score is never read), so scoring is
idempotent. -/
theorem score_pure_in_read_fields :
    (∀ (rx : String → ScoreCues) (wirePR : Option String → String → Bool)
        (a b : ClassifiedItem),
        a.title = b.title → a.summary = b.summary → a.url = b.url →
        a.klass = b.klass → a.marketCap = b.marketCap →
        a.symbols.length = b.symbols.length →
        (score rx wirePR [a]).map (fun it => it.score) =
          (score rx wirePR [b]).map (fun it => it.score)) ∧
    (∀ (rx : String → ScoreCues) (wirePR : Option String → String → Bool)
        (items : List ClassifiedItem),
        score rx wirePR (score rx wirePR items) = score rx wirePR items) := by
  constructor
  · intro rx wirePR a b ht hs hu hk hm hn
    simp [score, blobOf, ht, hs, hu, hk, hm, hn]
  · intro rx wirePR items
    induction items with
    | nil => rfl
    | cons hd tl ih =>
        simp only [score, List.map_cons] at ih ⊢
        rw [ih]
        exact congrArg (fun x => x :: _) rfl

/-- C3, witness for the amended theorem: two items differing only in their
stored score and symbol names (same count) receive the same score. -/
theorem score_pure_in_read_fields_witness :
    (score (fun _ => {}) (fun _ _ => false)
      [{ title := "x", summary := "y", url := none, symbols := ["A"],
         marketCap := none, klass := EventClass.OTHER, score := 0 }]).map
        (fun it => it.score) =
    (score (fun _ => {}) (fun _ _ => false)
      [{ title := "x", summary := "y", url := none, symbols := ["B"],
         marketCap := none, klass := EventClass.OTHER, score := 1 }]).map
        (fun it => it.score) :=
  score_pure_in_read_fields.1 _ _ _ _ rfl rfl rfl rfl rfl rfl

end NewsSurge
